import Mathlib

/-!
# Verification of the oneamp audio engine core

A shallow embedding of the oneamp playback engine (crate `oneamp-core`)
together with proofs about the properties stated in its specification.

Modelling conventions:

* Audio samples, gains and positions (`f32` in the source) are modelled as
  rationals (`ℚ`).  Every claim settled here is independent of rounding:
  it is either about control flow (which branch runs, which state fields
  are written), about exact copies of values, or about two runs performing
  literally identical operation sequences.
* The peaking-EQ coefficient formula in `BiquadFilter::set_peaking_eq`
  uses the transcendental operations `powf`, `sin` and `cos`.  Its result
  is abstracted as a parameter `pc : PeakFn` mapping
  (sample_rate, frequency, gain_db, q) to the five normalized
  coefficients; all claims below hold for every such function, since none
  of them depends on the numeric coefficient values, only on *when* and
  *from which inputs* coefficients are (re)computed.
* The symphonia format reader is modelled as the list of outcomes its
  successive `next_packet` calls produce; `Decoder::decode` outcomes are
  carried inside the packet entries.  `seek` consults an explicit
  response describing what `FormatReader::seek` returned.
* The error strings built with `format!` in the source are abstracted
  into the inductive `PErr`; claims never inspect message text.
-/

set_option autoImplicit false

namespace Oneamp

/-- Clamp as in Rust `f32::clamp(self, min, max)` (for non-NaN values):
values below `lo` become `lo`, above `hi` become `hi`. -/
def clampQ (x lo hi : ℚ) : ℚ := min (max x lo) hi

/-- The five normalized biquad coefficients produced by
`BiquadFilter::set_peaking_eq` (after dividing by `a0`). -/
structure PeakCoeffs where
  b0 : ℚ
  b1 : ℚ
  b2 : ℚ
  a1 : ℚ
  a2 : ℚ
deriving DecidableEq, Repr

/-- Abstract peaking-EQ coefficient formula:
arguments are (sample_rate, frequency, gain_db, q) exactly as in
`BiquadFilter::set_peaking_eq`. -/
def PeakFn : Type := ℚ → ℚ → ℚ → ℚ → PeakCoeffs

/-- `BiquadFilter` from `equalizer.rs`: five coefficients plus
independent (x1, x2, y1, y2) state per stereo channel. -/
structure BiquadFilter where
  b0 : ℚ
  b1 : ℚ
  b2 : ℚ
  a1 : ℚ
  a2 : ℚ
  x1_l : ℚ
  x2_l : ℚ
  y1_l : ℚ
  y2_l : ℚ
  x1_r : ℚ
  x2_r : ℚ
  y1_r : ℚ
  y2_r : ℚ
deriving DecidableEq, Repr

namespace BiquadFilter

/-- `BiquadFilter::new`: pass-through coefficients, zero state. -/
def new : BiquadFilter :=
  { b0 := 1, b1 := 0, b2 := 0, a1 := 0, a2 := 0
    x1_l := 0, x2_l := 0, y1_l := 0, y2_l := 0
    x1_r := 0, x2_r := 0, y1_r := 0, y2_r := 0 }

/-- `BiquadFilter::set_peaking_eq`: overwrite the coefficients with the
ones computed (by the abstracted cookbook formula `pc`) from
(sample_rate, frequency, gain_db, q); the state fields are untouched. -/
def set_peaking_eq (pc : PeakFn) (f : BiquadFilter) (sr freq gain q : ℚ) :
    BiquadFilter :=
  let c := pc sr freq gain q
  { f with b0 := c.b0, b1 := c.b1, b2 := c.b2, a1 := c.a1, a2 := c.a2 }

/-- `BiquadFilter::process_stereo`: direct-form-I step on each channel,
returning the output pair and the updated filter. -/
def process_stereo (f : BiquadFilter) (left right : ℚ) :
    (ℚ × ℚ) × BiquadFilter :=
  let left_out := f.b0 * left + f.b1 * f.x1_l + f.b2 * f.x2_l
                  - f.a1 * f.y1_l - f.a2 * f.y2_l
  let right_out := f.b0 * right + f.b1 * f.x1_r + f.b2 * f.x2_r
                   - f.a1 * f.y1_r - f.a2 * f.y2_r
  ((left_out, right_out),
   { f with
     x2_l := f.x1_l, x1_l := left, y2_l := f.y1_l, y1_l := left_out
     x2_r := f.x1_r, x1_r := right, y2_r := f.y1_r, y1_r := right_out })

/-- `BiquadFilter::reset`: zero the eight state variables, keep the
coefficients. -/
def reset (f : BiquadFilter) : BiquadFilter :=
  { f with
    x1_l := 0, x2_l := 0, y1_l := 0, y2_l := 0
    x1_r := 0, x2_r := 0, y1_r := 0, y2_r := 0 }

/-- The coefficient part of a filter. -/
def coeffs (f : BiquadFilter) : PeakCoeffs :=
  { b0 := f.b0, b1 := f.b1, b2 := f.b2, a1 := f.a1, a2 := f.a2 }

/-- Rebuild a filter from coefficients with zero state. -/
def ofCoeffs (c : PeakCoeffs) : BiquadFilter :=
  { b0 := c.b0, b1 := c.b1, b2 := c.b2, a1 := c.a1, a2 := c.a2
    x1_l := 0, x2_l := 0, y1_l := 0, y2_l := 0
    x1_r := 0, x2_r := 0, y1_r := 0, y2_r := 0 }

end BiquadFilter

/-- In-place update of one list position, as Rust slice assignment
`v[i] = a` (no-op past the end; callers guard the index). -/
def setAt {α : Type} : List α → ℕ → α → List α
  | [], _, _ => []
  | _ :: xs, 0, a => a :: xs
  | x :: xs, n + 1, a => x :: setAt xs n a

/-- `Equalizer` from `equalizer.rs`: band filters, center frequencies,
gains, sample rate and the enabled flag. -/
structure Equalizer where
  bands : List BiquadFilter
  frequencies : List ℚ
  gains : List ℚ
  sample_rate : ℚ
  enabled : Bool
deriving DecidableEq, Repr

namespace Equalizer

/-- The ten fixed center frequencies (31.25 Hz … 16 kHz). -/
def standardFrequencies : List ℚ :=
  [125/4, 125/2, 125, 250, 500, 1000, 2000, 4000, 8000, 16000]

/-- `Equalizer::update_filter`: recompute one band from
(sample_rate, frequency, gain, Q = 1.0); guarded by the band index. -/
def update_filter (pc : PeakFn) (eq : Equalizer) (i : ℕ) : Equalizer :=
  if i < eq.bands.length then
    { eq with
      bands := setAt eq.bands i
        ((eq.bands.getD i BiquadFilter.new).set_peaking_eq pc
          eq.sample_rate (eq.frequencies.getD i 0) (eq.gains.getD i 0) 1) }
  else eq

/-- `Equalizer::update_filters`: recompute every band
(`for i in 0..self.bands.len()`). -/
def update_filters (pc : PeakFn) (eq : Equalizer) : Equalizer :=
  (List.range eq.bands.length).foldl (fun e i => update_filter pc e i) eq

/-- `Equalizer::new`: ten pass-through filters, zero gains, disabled,
then an initial `update_filters`. -/
def new (pc : PeakFn) (sample_rate : ℚ) : Equalizer :=
  update_filters pc
    { bands := List.replicate 10 BiquadFilter.new
      frequencies := standardFrequencies
      gains := List.replicate 10 0
      sample_rate := sample_rate
      enabled := false }

/-- `Equalizer::set_enabled`: set the flag; on disabling, reset every
band filter state. -/
def set_enabled (eq : Equalizer) (enabled : Bool) : Equalizer :=
  if enabled then { eq with enabled := enabled }
  else { eq with enabled := enabled, bands := eq.bands.map BiquadFilter.reset }

/-- `Equalizer::set_band_gain`: when the index is in range, store the
clamped gain and recompute that band. -/
def set_band_gain (pc : PeakFn) (eq : Equalizer) (i : ℕ) (gain_db : ℚ) :
    Equalizer :=
  if i < eq.gains.length then
    update_filter pc { eq with gains := setAt eq.gains i (clampQ gain_db (-12) 12) } i
  else eq

/-- `Equalizer::get_band_gain`: stored gain, or `0.0` out of range. -/
def get_band_gain (eq : Equalizer) (i : ℕ) : ℚ :=
  eq.gains.getD i 0

/-- The gains produced by the loop in `Equalizer::set_all_gains`:
`for (i, gain) in gains.iter().enumerate().take(self.gains.len())`
clamps each provided gain into the corresponding position; positions
past the provided list keep their old value, provided entries past the
old length are ignored. -/
def updateGains : List ℚ → List ℚ → List ℚ
  | old, [] => old
  | [], _ => []
  | _ :: os, g :: gs => clampQ g (-12) 12 :: updateGains os gs

/-- `Equalizer::set_all_gains`: write the clamped provided gains, then
recompute all filters. -/
def set_all_gains (pc : PeakFn) (eq : Equalizer) (gs : List ℚ) : Equalizer :=
  update_filters pc { eq with gains := updateGains eq.gains gs }

/-- `Equalizer::reset_all_bands`: all gains to 0, recompute filters. -/
def reset_all_bands (pc : PeakFn) (eq : Equalizer) : Equalizer :=
  update_filters pc { eq with gains := List.replicate eq.gains.length 0 }

/-- `Equalizer::get_all_gains`. -/
def get_all_gains (eq : Equalizer) : List ℚ :=
  eq.gains

/-- `Equalizer::is_enabled`. -/
def is_enabled (eq : Equalizer) : Bool :=
  eq.enabled

/-- The `for band in &mut self.bands` loop of
`Equalizer::process_stereo`: thread the sample pair through the bands in
series, updating each band state. -/
def processBands : List BiquadFilter → ℚ → ℚ → (ℚ × ℚ) × List BiquadFilter
  | [], l, r => ((l, r), [])
  | b :: bs, l, r =>
    let s := b.process_stereo l r
    let rest := processBands bs s.1.1 s.1.2
    (rest.1, s.2 :: rest.2)

/-- `Equalizer::process_stereo`: identity when disabled, otherwise the
cascade over all bands. -/
def process_stereo (eq : Equalizer) (left right : ℚ) :
    (ℚ × ℚ) × Equalizer :=
  if eq.enabled then
    let s := processBands eq.bands left right
    (s.1, { eq with bands := s.2 })
  else ((left, right), eq)

/-- Process a whole sequence of stereo pairs, collecting the outputs. -/
def processSeq (eq : Equalizer) : List (ℚ × ℚ) → List (ℚ × ℚ) × Equalizer
  | [] => ([], eq)
  | p :: ps =>
    let s := process_stereo eq p.1 p.2
    let rest := processSeq s.2 ps
    (s.1 :: rest.1, rest.2)

end Equalizer

end Oneamp

namespace Oneamp

/-! ## Basic lemmas about the equalizer embedding -/

theorem setAt_length {α : Type} (l : List α) (i : ℕ) (a : α) :
    (setAt l i a).length = l.length := by
  induction l generalizing i with
  | nil => rfl
  | cons x xs ih =>
    cases i with
    | zero => rfl
    | succ n => simp [setAt, ih]

theorem getD_setAt_eq {α : Type} (l : List α) (i : ℕ) (a d : α)
    (h : i < l.length) : (setAt l i a).getD i d = a := by
  induction l generalizing i with
  | nil => simp at h
  | cons x xs ih =>
    cases i with
    | zero => rfl
    | succ n =>
      simp only [setAt, List.getD_cons_succ]
      exact ih n (by simpa using h)

theorem updateGains_length (old gs : List ℚ) :
    (Equalizer.updateGains old gs).length = old.length := by
  induction old generalizing gs with
  | nil => cases gs <;> rfl
  | cons o os ih =>
    cases gs with
    | nil => rfl
    | cons g gs' => simp [Equalizer.updateGains, ih]

theorem getD_updateGains_lt (old gs : List ℚ) (i : ℕ)
    (hi : i < gs.length) (ho : i < old.length) :
    (Equalizer.updateGains old gs).getD i 0 = clampQ (gs.getD i 0) (-12) 12 := by
  induction old generalizing gs i with
  | nil => simp at ho
  | cons o os ih =>
    cases gs with
    | nil => simp at hi
    | cons g gs' =>
      cases i with
      | zero => rfl
      | succ n =>
        simp only [Equalizer.updateGains, List.getD_cons_succ]
        exact ih gs' n (by simpa using hi) (by simpa using ho)

theorem getD_updateGains_ge (old gs : List ℚ) (i : ℕ)
    (hi : gs.length ≤ i) :
    (Equalizer.updateGains old gs).getD i 0 = old.getD i 0 := by
  induction old generalizing gs i with
  | nil => cases gs <;> rfl
  | cons o os ih =>
    cases gs with
    | nil => rfl
    | cons g gs' =>
      cases i with
      | zero => simp at hi
      | succ n =>
        simp only [Equalizer.updateGains, List.getD_cons_succ]
        exact ih gs' n (by simpa using hi)

theorem updateGains_take (old gs : List ℚ) :
    Equalizer.updateGains old gs = Equalizer.updateGains old (gs.take old.length) := by
  induction old generalizing gs with
  | nil => cases gs <;> rfl
  | cons o os ih =>
    cases gs with
    | nil => rfl
    | cons g gs' => simp [Equalizer.updateGains, ih gs']

/-- `update_filter` does not change the gains. -/
theorem update_filter_gains (pc : PeakFn) (eq : Equalizer) (i : ℕ) :
    (Equalizer.update_filter pc eq i).gains = eq.gains := by
  unfold Equalizer.update_filter
  split <;> rfl

/-- `update_filters` does not change the gains. -/
theorem update_filters_gains (pc : PeakFn) (eq : Equalizer) :
    (Equalizer.update_filters pc eq).gains = eq.gains := by
  unfold Equalizer.update_filters
  generalize List.range eq.bands.length = l
  induction l generalizing eq with
  | nil => rfl
  | cons i is ih =>
    simp only [List.foldl_cons]
    rw [ih, update_filter_gains]

/-! ## C4: disabled equalizer is the exact identity -/

/-- C4: for every equalizer whose `enabled` flag is false and every
stereo pair `(l, r)`, `Equalizer::process_stereo` returns exactly
`(l, r)` and leaves the whole equalizer — in particular all per-band
filter state — unchanged, regardless of the configured band gains. -/
theorem c4_disabled_process_is_identity (eq : Equalizer) (l r : ℚ)
    (h : eq.enabled = false) :
    eq.process_stereo l r = ((l, r), eq) := by
  unfold Equalizer.process_stereo
  rw [h]
  rfl

/-- A coefficient function used to instantiate witnesses: every band
gets the pass-through coefficients. -/
def pcId : PeakFn := fun _ _ _ _ => { b0 := 1, b1 := 0, b2 := 0, a1 := 0, a2 := 0 }

theorem c4_disabled_process_is_identity_witness :
    (Equalizer.new pcId 44100).enabled = false ∧
    (Equalizer.new pcId 44100).process_stereo 1 (1/2) =
      ((1, 1/2), Equalizer.new pcId 44100) := by
  refine ⟨by decide, c4_disabled_process_is_identity _ 1 (1/2) (by decide)⟩

/-! ## C9: gains are stored clamped to [-12, 12] -/

/-- C9: for every band index `i < 10` and every attempted gain `g`,
after `set_band_gain(i, g)` — and likewise after `set_all_gains` with
`g` at position `i` — the stored gain for band `i` is exactly
`clamp(g, -12, 12)`.  (`eq.gains.length = 10` holds for every equalizer
built through the public interface.) -/
theorem c9_stored_gain_is_clamped (pc : PeakFn) (eq : Equalizer) (i : ℕ)
    (g : ℚ) (hlen : eq.gains.length = 10) (hi : i < 10) :
    (eq.set_band_gain pc i g).get_band_gain i = clampQ g (-12) 12 ∧
    (∀ gs : List ℚ, i < gs.length → gs.getD i 0 = g →
      (eq.set_all_gains pc gs).get_band_gain i = clampQ g (-12) 12) := by
  constructor
  · unfold Equalizer.set_band_gain
    rw [if_pos (by omega)]
    unfold Equalizer.get_band_gain
    rw [update_filter_gains]
    exact getD_setAt_eq eq.gains i _ 0 (by omega)
  · intro gs hgs hg
    unfold Equalizer.set_all_gains Equalizer.get_band_gain
    rw [update_filters_gains]
    simp only
    rw [getD_updateGains_lt eq.gains gs i hgs (by omega), hg]

theorem c9_stored_gain_is_clamped_witness :
    (Equalizer.new pcId 44100).gains.length = 10 ∧ (3 : ℕ) < 10 ∧
    ((Equalizer.new pcId 44100).set_band_gain pcId 3 20).get_band_gain 3 =
      clampQ 20 (-12) 12 ∧
    ((Equalizer.new pcId 44100).set_all_gains pcId
      [0, 0, 0, 20, 0, 0, 0, 0, 0, 0]).get_band_gain 3 = clampQ 20 (-12) 12 := by
  have h := c9_stored_gain_is_clamped pcId (Equalizer.new pcId 44100) 3 20
    (by decide) (by decide)
  exact ⟨by decide, by decide, h.1,
    h.2 [0, 0, 0, 20, 0, 0, 0, 0, 0, 0] (by decide) (by decide)⟩

/-! ## C10: out-of-range band indices are total no-ops -/

/-- C10: out-of-range indices at the equalizer interface are total and
side-effect free: for `i ≥ 10`, `set_band_gain(i, g)` returns the
equalizer completely unchanged (gains, coefficients and state) and
`get_band_gain(i)` returns `0.0`; `set_all_gains` ignores entries past
the tenth and leaves gains past the provided prefix unchanged. -/
theorem c10_out_of_range_band_ops (pc : PeakFn) (eq : Equalizer) (i : ℕ)
    (g : ℚ) (hlen : eq.gains.length = 10) (hi : 10 ≤ i) :
    eq.set_band_gain pc i g = eq ∧
    eq.get_band_gain i = 0 ∧
    (∀ gs : List ℚ, eq.set_all_gains pc gs = eq.set_all_gains pc (gs.take 10)) ∧
    (∀ gs : List ℚ, ∀ j : ℕ, gs.length ≤ j →
      (eq.set_all_gains pc gs).get_band_gain j = eq.get_band_gain j) := by
  refine ⟨?_, ?_, ?_, ?_⟩
  · unfold Equalizer.set_band_gain
    rw [if_neg (by omega)]
  · unfold Equalizer.get_band_gain
    exact List.getD_eq_default _ _ (by omega)
  · intro gs
    unfold Equalizer.set_all_gains
    rw [updateGains_take eq.gains gs, hlen]
  · intro gs j hj
    unfold Equalizer.set_all_gains Equalizer.get_band_gain
    rw [update_filters_gains]
    simp only
    exact getD_updateGains_ge eq.gains gs j hj

theorem c10_out_of_range_band_ops_witness :
    (Equalizer.new pcId 44100).gains.length = 10 ∧ (10 : ℕ) ≤ 12 ∧
    (Equalizer.new pcId 44100).set_band_gain pcId 12 5 = Equalizer.new pcId 44100 ∧
    (Equalizer.new pcId 44100).get_band_gain 12 = 0 ∧
    ((Equalizer.new pcId 44100).set_all_gains pcId [7, 7]).get_band_gain 5 =
      (Equalizer.new pcId 44100).get_band_gain 5 := by
  have h := c10_out_of_range_band_ops pcId (Equalizer.new pcId 44100) 12 5
    (by decide) (by decide)
  exact ⟨by decide, by decide, h.1, h.2.1, h.2.2.2 [7, 7] 5 (by decide)⟩

/-! ## Lemmas for C5: disabling wipes the filter memory -/

theorem reset_eq_ofCoeffs (f : BiquadFilter) :
    f.reset = BiquadFilter.ofCoeffs f.coeffs := rfl

theorem coeffs_process_stereo (f : BiquadFilter) (l r : ℚ) :
    (f.process_stereo l r).2.coeffs = f.coeffs := rfl

theorem coeffs_set_peaking_eq (pc : PeakFn) (f : BiquadFilter)
    (sr freq gain q : ℚ) :
    (f.set_peaking_eq pc sr freq gain q).reset =
      (f.reset).set_peaking_eq pc sr freq gain q := rfl

theorem mem_setAt {α : Type} (l : List α) (i : ℕ) (a b : α) :
    b ∈ setAt l i a → b = a ∨ b ∈ l := by
  induction l generalizing i with
  | nil => intro h; simp [setAt] at h
  | cons x xs ih =>
    cases i with
    | zero =>
      intro h
      rcases List.mem_cons.mp h with h | h
      · exact Or.inl h
      · exact Or.inr (List.mem_cons_of_mem _ h)
    | succ n =>
      intro h
      rcases List.mem_cons.mp h with h | h
      · exact Or.inr (h ▸ List.mem_cons_self _ _)
      · rcases ih n h with h' | h'
        · exact Or.inl h'
        · exact Or.inr (List.mem_cons_of_mem _ h')

theorem getD_mem_of_lt {α : Type} (l : List α) (i : ℕ) (d : α)
    (h : i < l.length) : l.getD i d ∈ l := by
  induction l generalizing i with
  | nil => simp at h
  | cons x xs ih =>
    cases i with
    | zero => exact List.mem_cons_self _ _
    | succ n =>
      exact List.mem_cons_of_mem _ (ih n (by simpa using h))

theorem map_eq_self_of_mem {α : Type} (l : List α) (f : α → α)
    (h : ∀ b ∈ l, f b = b) : l.map f = l := by
  induction l with
  | nil => rfl
  | cons x xs ih =>
    simp only [List.map_cons]
    rw [h x (List.mem_cons_self _ _), ih (fun b hb => h b (List.mem_cons_of_mem _ hb))]

/-- Every band filter of the equalizer has all-zero state. -/
def zeroState (eq : Equalizer) : Prop :=
  ∀ b ∈ eq.bands, b.reset = b

theorem zeroState_update_filter (pc : PeakFn) (eq : Equalizer) (i : ℕ)
    (h : zeroState eq) : zeroState (eq.update_filter pc i) := by
  unfold Equalizer.update_filter
  split
  · intro b hb
    rcases mem_setAt _ _ _ _ hb with hb' | hb'
    · subst hb'
      rw [coeffs_set_peaking_eq,
        h _ (getD_mem_of_lt eq.bands i BiquadFilter.new (by assumption))]
    · exact h b hb'
  · exact h

theorem zeroState_foldl_update (pc : PeakFn) (l : List ℕ) (eq : Equalizer)
    (h : zeroState eq) :
    zeroState (l.foldl (fun e i => e.update_filter pc i) eq) := by
  induction l generalizing eq with
  | nil => exact h
  | cons i is ih =>
    exact ih _ (zeroState_update_filter pc eq i h)

theorem zeroState_update_filters (pc : PeakFn) (eq : Equalizer)
    (h : zeroState eq) : zeroState (eq.update_filters pc) :=
  zeroState_foldl_update pc _ eq h

theorem zeroState_new (pc : PeakFn) (sr : ℚ) : zeroState (Equalizer.new pc sr) := by
  apply zeroState_update_filters
  intro b hb
  rw [List.eq_of_mem_replicate hb]
  rfl

theorem zeroState_set_all_gains (pc : PeakFn) (eq : Equalizer) (gs : List ℚ)
    (h : zeroState eq) : zeroState (eq.set_all_gains pc gs) :=
  zeroState_update_filters pc _ h

theorem zeroState_set_enabled_true (eq : Equalizer)
    (h : zeroState eq) : zeroState (eq.set_enabled true) := h

theorem processBands_coeffs (bs : List BiquadFilter) (l r : ℚ) :
    (Equalizer.processBands bs l r).2.map BiquadFilter.coeffs =
      bs.map BiquadFilter.coeffs := by
  induction bs generalizing l r with
  | nil => rfl
  | cons b bs' ih =>
    simp only [Equalizer.processBands, List.map_cons]
    rw [coeffs_process_stereo, ih]

/-- `process_stereo` changes only band filter state: gains, frequencies,
sample rate, enabled flag and all band coefficients are preserved. -/
theorem process_stereo_preserves (eq : Equalizer) (l r : ℚ) :
    ((eq.process_stereo l r).2.gains = eq.gains) ∧
    ((eq.process_stereo l r).2.frequencies = eq.frequencies) ∧
    ((eq.process_stereo l r).2.sample_rate = eq.sample_rate) ∧
    ((eq.process_stereo l r).2.enabled = eq.enabled) ∧
    ((eq.process_stereo l r).2.bands.map BiquadFilter.coeffs =
      eq.bands.map BiquadFilter.coeffs) := by
  unfold Equalizer.process_stereo
  split
  · exact ⟨rfl, rfl, rfl, rfl, processBands_coeffs eq.bands l r⟩
  · exact ⟨rfl, rfl, rfl, rfl, rfl⟩

theorem processSeq_preserves (eq : Equalizer) (xs : List (ℚ × ℚ)) :
    ((eq.processSeq xs).2.gains = eq.gains) ∧
    ((eq.processSeq xs).2.frequencies = eq.frequencies) ∧
    ((eq.processSeq xs).2.sample_rate = eq.sample_rate) ∧
    ((eq.processSeq xs).2.enabled = eq.enabled) ∧
    ((eq.processSeq xs).2.bands.map BiquadFilter.coeffs =
      eq.bands.map BiquadFilter.coeffs) := by
  induction xs generalizing eq with
  | nil => exact ⟨rfl, rfl, rfl, rfl, rfl⟩
  | cons p ps ih =>
    have h1 := process_stereo_preserves eq p.1 p.2
    have h2 := ih (eq.process_stereo p.1 p.2).2
    simp only [Equalizer.processSeq]
    exact ⟨h2.1.trans h1.1, h2.2.1.trans h1.2.1, h2.2.2.1.trans h1.2.2.1,
      h2.2.2.2.1.trans h1.2.2.2.1, h2.2.2.2.2.trans h1.2.2.2.2⟩

theorem map_reset_eq_of_coeffs_eq (bs cs : List BiquadFilter)
    (h : bs.map BiquadFilter.coeffs = cs.map BiquadFilter.coeffs) :
    bs.map BiquadFilter.reset = cs.map BiquadFilter.reset := by
  have hb : bs.map BiquadFilter.reset =
      (bs.map BiquadFilter.coeffs).map BiquadFilter.ofCoeffs := by
    rw [List.map_map]; rfl
  have hc : cs.map BiquadFilter.reset =
      (cs.map BiquadFilter.coeffs).map BiquadFilter.ofCoeffs := by
    rw [List.map_map]; rfl
  rw [hb, hc, h]

theorem Equalizer.eq_of_fields {a b : Equalizer} (h1 : a.bands = b.bands)
    (h2 : a.frequencies = b.frequencies) (h3 : a.gains = b.gains)
    (h4 : a.sample_rate = b.sample_rate) (h5 : a.enabled = b.enabled) :
    a = b := by
  cases a
  cases b
  simp_all

/-- Disabling and re-enabling an equalizer whose filters already have
zero state, after any amount of processing, yields that equalizer back. -/
theorem reenable_after_processing (fresh : Equalizer)
    (hist : List (ℚ × ℚ)) (hzs : zeroState fresh)
    (hen : fresh.enabled = true) :
    (((fresh.processSeq hist).2.set_enabled false).set_enabled true) = fresh := by
  have hpres := processSeq_preserves fresh hist
  apply Equalizer.eq_of_fields
  · show (fresh.processSeq hist).2.bands.map BiquadFilter.reset = fresh.bands
    rw [map_reset_eq_of_coeffs_eq _ _ hpres.2.2.2.2]
    exact map_eq_self_of_mem fresh.bands BiquadFilter.reset hzs
  · exact hpres.2.1
  · exact hpres.1
  · exact hpres.2.2.1
  · show true = fresh.enabled
    exact hen.symm

/-! ## C5: re-enable after disable has no memory -/

/-- C5: `set_enabled(false)` resets the per-channel state variables
(x1, x2, y1, y2 for both channels) of every band filter while keeping
the gains, so that for every configuration (sample rate `sr`, gains
`gs`), every already-processed history `hist` and every input `x`,
`disable(); enable(); process(x)` produces exactly the output of a
freshly constructed, identically configured equalizer on `x`. -/
theorem c5_disable_enable_no_memory (pc : PeakFn) (sr : ℚ) (gs : List ℚ)
    (hist x : List (ℚ × ℚ)) :
    (∀ eq : Equalizer,
      (eq.set_enabled false).bands = eq.bands.map BiquadFilter.reset ∧
      (eq.set_enabled false).gains = eq.gains) ∧
    (((((((Equalizer.new pc sr).set_all_gains pc gs).set_enabled
        true).processSeq hist).2.set_enabled false).set_enabled
        true).processSeq x =
      ((((Equalizer.new pc sr).set_all_gains pc gs).set_enabled
        true).processSeq x)) := by
  constructor
  · intro eq
    exact ⟨rfl, rfl⟩
  · rw [reenable_after_processing _ hist
      (zeroState_set_enabled_true _
        (zeroState_set_all_gains pc _ gs (zeroState_new pc sr)))
      rfl]

/-! ## Error values

The source builds error strings with `format!`/`anyhow::Context`; the
text is irrelevant to every claim, so errors are abstracted into an
inductive tag. -/

inductive PErr
  /-- `CpalOutput::new`: `No output device available`. -/
  | noOutputDevice
  /-- `CpalOutput::try_build_stream` failed (both attempts in `new`). -/
  | buildStream
  /-- `TrackInfo::from_file` failed (file open or probe). -/
  | loadTrackFailed
  /-- `SymphoniaPlayer::load` failed (file open, probe, no supported
  track, or decoder construction). -/
  | loadFileFailed
  /-- `format_reader.next_packet` returned a non-EOF, non-reset error. -/
  | readPacketFailed
  /-- `decoder.decode` returned an error other than `DecodeError`. -/
  | decodeFailed
  /-- `format_reader.seek` failed. -/
  | seekFailed
deriving DecidableEq, Repr

/-! ## CpalOutput (`cpal_output.rs`)

`try_build_stream` creates a `VecDeque` and an `is_playing` flag and
moves clones of them into the hardware callback closure; `new` then
creates a *second, distinct* `VecDeque` and flag and stores those in the
struct.  The model keeps both pairs: `callbackBuffer`/`callbackPlaying`
are the ones the stream callback reads, `sampleBuffer`/`isPlaying` are
the ones stored in the struct (and therefore the ones `write_samples`,
`pause`, `clear`, `buffer_len` and `needs_data` touch). -/

structure CpalOutput where
  callbackBuffer : List ℚ
  callbackPlaying : Bool
  sampleBuffer : List ℚ
  isPlaying : Bool
  sample_rate : ℕ
  channels : ℕ
deriving DecidableEq, Repr

/-- An output device: which stream configurations
`build_output_stream` accepts, and the default output config. -/
structure DeviceModel where
  accepts : ℕ → ℕ → Bool
  defaultRate : ℕ
  defaultChannels : ℕ

namespace CpalOutput

/-- `CpalOutput::try_build_stream`: on success the callback-side buffer
and flag (fresh, empty, playing) are what the closure captured; the
returned triple is (that stream state, sample_rate, channels). -/
def try_build_stream (d : DeviceModel) (sr ch : ℕ) :
    Except PErr ((List ℚ × Bool) × ℕ × ℕ) :=
  if d.accepts sr ch then .ok (([], true), sr, ch) else .error .buildStream

/-- Assemble the struct `new` builds on a successful
`try_build_stream`: note the *fresh* `sampleBuffer`/`isPlaying`,
distinct from the callback-side pair. -/
def assemble (stream : List ℚ × Bool) (sr ch : ℕ) : CpalOutput :=
  { callbackBuffer := stream.1, callbackPlaying := stream.2
    sampleBuffer := [], isPlaying := true
    sample_rate := sr, channels := ch }

/-- `CpalOutput::new`: fail when there is no default output device;
otherwise try the requested config, then fall back to the device's
default config, and fail only when both attempts fail. -/
def new (device : Option DeviceModel) (req_sr req_ch : ℕ) :
    Except PErr CpalOutput :=
  match device with
  | none => .error .noOutputDevice
  | some d =>
    match try_build_stream d req_sr req_ch with
    | .ok (stream, sr, ch) => .ok (assemble stream sr ch)
    | .error _ =>
      match try_build_stream d d.defaultRate d.defaultChannels with
      | .ok (stream, sr, ch) => .ok (assemble stream sr ch)
      | .error e2 => .error e2

/-- The hardware callback closure, asked for `n` samples: when its
(captured) playing flag is false it outputs silence without draining;
otherwise each slot gets `buffer.pop_front().unwrap_or(0.0)`. -/
def callbackFill (o : CpalOutput) (n : ℕ) : List ℚ × CpalOutput :=
  if o.callbackPlaying = false then (List.replicate n 0, o)
  else (o.callbackBuffer.take n ++ List.replicate (n - o.callbackBuffer.length) 0,
        { o with callbackBuffer := o.callbackBuffer.drop n })

/-- `CpalOutput::write_samples`: extend the struct-side buffer. -/
def write_samples (o : CpalOutput) (samples : List ℚ) : CpalOutput :=
  { o with sampleBuffer := o.sampleBuffer ++ samples }

/-- `CpalOutput::play`: set the struct-side flag. -/
def play (o : CpalOutput) : CpalOutput :=
  { o with isPlaying := true }

/-- `CpalOutput::pause`: clear the struct-side flag. -/
def pause (o : CpalOutput) : CpalOutput :=
  { o with isPlaying := false }

/-- `CpalOutput::clear`: drop the struct-side buffer contents. -/
def clear (o : CpalOutput) : CpalOutput :=
  { o with sampleBuffer := [] }

/-- `CpalOutput::buffer_len`. -/
def buffer_len (o : CpalOutput) : ℕ :=
  o.sampleBuffer.length

/-- `CpalOutput::needs_data`: below a quarter second of buffered
samples at the current rate and channel count. -/
def needs_data (o : CpalOutput) : Bool :=
  o.buffer_len < o.sample_rate * o.channels / 4

end CpalOutput

/-! ## AudioCaptureBuffer (`audio_capture.rs`) -/

structure AudioCaptureBuffer where
  samples : List ℚ
  sample_rate : ℕ
  channels : ℕ
deriving DecidableEq, Repr

namespace AudioCaptureBuffer

/-- `AudioCaptureBuffer::new(buffer_size)`. -/
def new (buffer_size : ℕ) : AudioCaptureBuffer :=
  { samples := List.replicate buffer_size 0, sample_rate := 44100, channels := 2 }

/-- `AudioCaptureBuffer::update`: overwrite the fixed-length buffer
wholesale with the new chunk, zero-padded to fit. -/
def update (b : AudioCaptureBuffer) (s : List ℚ) (sr ch : ℕ) :
    AudioCaptureBuffer :=
  { samples := s.take b.samples.length ++
      List.replicate (b.samples.length - s.length) 0
    sample_rate := sr, channels := ch }

/-- `AudioCaptureBuffer::get_samples`. -/
def get_samples (b : AudioCaptureBuffer) : List ℚ :=
  b.samples

end AudioCaptureBuffer

/-! ## SymphoniaPlayer (`symphonia_player.rs`)

The symphonia `FormatReader` is modelled by the list of outcomes its
successive `next_packet` calls produce; the `Decoder::decode` outcome
for a packet is carried in the packet entry.  An exhausted list behaves
like a reader at end of file (`UnexpectedEof` forever). -/

inductive IoErrKind
  | unexpectedEof
  | otherIo
deriving DecidableEq, Repr

/-- Outcome of `decoder.decode(&packet)` for one packet, with the
already converted/interleaved f32 samples on success. -/
inductive DecodeOutcome
  | ok (samples : List ℚ)
  | decodeError
  | otherError
deriving DecidableEq, Repr

/-- Outcome of one `format_reader.next_packet()` call. -/
inductive ReadResult
  | packet (track_id : ℕ) (outcome : DecodeOutcome)
  | ioError (kind : IoErrKind)
  | resetRequired
  | otherError
deriving DecidableEq, Repr

/-- What `format_reader.seek(SeekMode::Accurate, ...)` returned: on
success the actual timestamp landed on and the packets the repositioned
reader will deliver; `ResetRequired`; or a failure. -/
inductive SeekResponse
  | ok (actual_ts : ℕ) (after : List ReadResult)
  | resetRequired (after : List ReadResult)
  | err
deriving DecidableEq, Repr

structure PlayerState where
  stream : List ReadResult
  track_id : ℕ
  sample_rate : ℕ
  channels : ℕ
  /-- `track.codec_params.time_base` as (numer, denom), defaulted to
  `(1, sample_rate)`. -/
  time_base : ℕ × ℕ
  current_position : ℚ
deriving DecidableEq, Repr

namespace SymphoniaPlayer

/-- `TimeBase::calc_time(ts).seconds`: the whole-second part of
`ts * numer / denom`. -/
def calcTimeSeconds (tb : ℕ × ℕ) (ts : ℕ) : ℕ :=
  ts * tb.1 / tb.2

/-- `SymphoniaPlayer::seek`: on reader success, reset the decoder and
set `current_position` to the (truncated) whole seconds of the actual
timestamp; on `ResetRequired`, reset the decoder and report success
*without touching the position*; otherwise fail. -/
def seek (p : PlayerState) (_seconds : ℚ) (resp : SeekResponse) :
    Except PErr Unit × PlayerState :=
  match resp with
  | .ok actual_ts after =>
    (.ok (), { p with
               stream := after,
               current_position := (calcTimeSeconds p.time_base actual_ts : ℚ) })
  | .resetRequired after =>
    (.ok (), { p with stream := after })
  | .err => (.error .seekFailed, p)

/-- The mono branch of `SymphoniaPlayer::apply_equalizer`: each sample
processed as an identical stereo pair, keeping the left output. -/
def applyEqMono (eq : Equalizer) : List ℚ → List ℚ × Equalizer
  | [] => ([], eq)
  | s :: rest =>
    let r := eq.process_stereo s s
    let next := applyEqMono r.2 rest
    (r.1.1 :: next.1, next.2)

/-- The stereo branch of `SymphoniaPlayer::apply_equalizer`:
`chunks_exact(2)` processes consecutive pairs and drops a trailing odd
sample. -/
def applyEqChunks (eq : Equalizer) : List ℚ → List ℚ × Equalizer
  | a :: b :: rest =>
    let r := eq.process_stereo a b
    let next := applyEqChunks r.2 rest
    (r.1.1 :: r.1.2 :: next.1, next.2)
  | _ => ([], eq)

/-- `SymphoniaPlayer::apply_equalizer`: pass-through when the equalizer
is disabled or for more than two channels; otherwise the mono or stereo
branch. -/
def apply_equalizer (eq : Equalizer) (channels : ℕ) (samples : List ℚ) :
    List ℚ × Equalizer :=
  if eq.is_enabled = false then (samples, eq)
  else if channels = 1 then applyEqMono eq samples
  else if channels = 2 then applyEqChunks eq samples
  else (samples, eq)

/-- `SymphoniaPlayer::decode_next`.  Returns the decode result plus the
updated player, shared equalizer and shared capture buffer.  The
`decoder.reset()` calls of the source have no observable effect in the
model (the decoder's internal state is not modelled beyond the packet
outcomes). -/
def decode_next (p : PlayerState) (eq : Equalizer)
    (cap : AudioCaptureBuffer) :
    Except PErr (Option (List ℚ)) × PlayerState × Equalizer × AudioCaptureBuffer :=
  match p.stream with
  | [] => (.ok none, p, eq, cap)
  | r :: rest =>
    let p1 : PlayerState := { p with stream := rest }
    match r with
    | .ioError .unexpectedEof => (.ok none, p1, eq, cap)
    | .ioError .otherIo => (.error .readPacketFailed, p1, eq, cap)
    | .resetRequired => (.ok (some []), p1, eq, cap)
    | .otherError => (.error .readPacketFailed, p1, eq, cap)
    | .packet tid outcome =>
      if tid ≠ p.track_id then (.ok (some []), p1, eq, cap)
      else
        match outcome with
        | .decodeError => (.ok (some []), p1, eq, cap)
        | .otherError => (.error .decodeFailed, p1, eq, cap)
        | .ok samples =>
          let frames := samples.length / p.channels
          let p2 : PlayerState :=
            { p1 with current_position :=
                p.current_position + (frames : ℚ) / (p.sample_rate : ℚ) }
          let processed := apply_equalizer eq p.channels samples
          let cap2 := cap.update processed.1 p.sample_rate p.channels
          (.ok (some processed.1), p2, processed.2, cap2)

/-- `SymphoniaPlayer::current_position`. -/
def current_position (p : PlayerState) : ℚ :=
  p.current_position

end SymphoniaPlayer

/-! ## The audio control thread (`audio_thread_symphonia.rs`)

`audio_thread_main_symphonia` is a loop; each iteration optionally
handles one command and then runs the decode/feed/report phase.  The
external world (file loads, device negotiation, reader responses,
elapsed-time throttling) is supplied through explicit inputs:

* a `play` command carries the outcomes of `TrackInfo::from_file` and
  `SymphoniaPlayer::load` for its path;
* a `seek` command carries the `FormatReader::seek` response;
* each iteration carries whether the 100 ms position throttle has
  elapsed. -/

structure TrackInfo where
  duration_secs : Option ℚ
deriving DecidableEq, Repr

inductive AudioEvent
  | trackLoaded (t : TrackInfo)
  | playing
  | paused
  | stopped
  | position (current total : ℚ)
  | finished
  | requestNext
  | requestPrevious
  | equalizerUpdated (enabled : Bool) (gains : List ℚ)
  | visualizationData (samples : List ℚ)
  | error (e : PErr)
deriving DecidableEq, Repr

/-- One `AudioCommand`, with the external outcomes its handling
consults resolved into the command value. -/
inductive CmdIn
  | play (load : Except PErr TrackInfo) (loadPlayer : Except PErr PlayerState)
  | pause
  | resume
  | stop
  | seek (pos : ℚ) (resp : SeekResponse)
  | next
  | previous
  | setEqualizerEnabled (enabled : Bool)
  | setEqualizerBand (i : ℕ) (gain : ℚ)
  | setEqualizerBands (gains : List ℚ)
  | resetEqualizer
  | shutdown

/-- The ambient platform audio host. -/
structure World where
  device : Option DeviceModel

/-- The `PlaybackState` struct of the audio thread. -/
structure PBState where
  player : PlayerState
  output : CpalOutput
  is_paused : Bool
deriving DecidableEq, Repr

/-- The control-thread-local state of `audio_thread_main_symphonia`. -/
structure ControllerState where
  playback : Option PBState
  current_track : Option TrackInfo
  equalizer : Equalizer
  capture : AudioCaptureBuffer
deriving DecidableEq, Repr

/-- `load_and_play`: build the player (outcome supplied), then the
output for the player's rate and channel count. -/
def load_and_play (loadPlayer : Except PErr PlayerState) (w : World) :
    Except PErr PBState :=
  match loadPlayer with
  | .error e => .error e
  | .ok player =>
    match CpalOutput.new w.device player.sample_rate player.channels with
    | .error e => .error e
    | .ok output => .ok { player := player, output := output, is_paused := false }

/-- The `match cmd` block of the control loop.  Returns the new state,
the events sent (in send order) and whether the loop breaks
(`Shutdown`). -/
def handleCommand (pc : PeakFn) (w : World) (st : ControllerState)
    (c : CmdIn) : ControllerState × List AudioEvent × Bool :=
  match c with
  | .play load loadPlayer =>
    let st1 : ControllerState := { st with playback := none }
    match load with
    | .error e => (st1, [.error e], false)
    | .ok track_info =>
      let st2 : ControllerState := { st1 with current_track := some track_info }
      match load_and_play loadPlayer w with
      | .ok pb =>
        ({ st2 with playback := some pb }, [.trackLoaded track_info, .playing], false)
      | .error e => (st2, [.trackLoaded track_info, .error e], false)
  | .pause =>
    match st.playback with
    | some pb =>
      if pb.is_paused = false then
        ({ st with playback := some { pb with output := pb.output.pause, is_paused := true } },
         [.paused], false)
      else (st, [], false)
    | none => (st, [], false)
  | .resume =>
    match st.playback with
    | some pb =>
      if pb.is_paused then
        ({ st with playback := some { pb with output := pb.output.play, is_paused := false } },
         [.playing], false)
      else (st, [], false)
    | none => (st, [], false)
  | .stop =>
    ({ st with playback := none, current_track := none }, [.stopped], false)
  | .seek pos resp =>
    match st.playback with
    | some pb =>
      let s := SymphoniaPlayer.seek pb.player pos resp
      match s.1 with
      | .ok _ =>
        ({ st with playback := some { pb with player := s.2, output := pb.output.clear } },
         [.playing], false)
      | .error e =>
        ({ st with playback := some { pb with player := s.2 } }, [.error e], false)
    | none => (st, [], false)
  | .next =>
    ({ st with playback := none, current_track := none }, [.requestNext], false)
  | .previous =>
    ({ st with playback := none, current_track := none }, [.requestPrevious], false)
  | .setEqualizerEnabled enabled =>
    let eq := st.equalizer.set_enabled enabled
    ({ st with equalizer := eq }, [.equalizerUpdated enabled eq.get_all_gains], false)
  | .setEqualizerBand i gain =>
    let eq := st.equalizer.set_band_gain pc i gain
    ({ st with equalizer := eq }, [.equalizerUpdated eq.is_enabled eq.get_all_gains], false)
  | .setEqualizerBands gains =>
    let eq := st.equalizer.set_all_gains pc gains
    ({ st with equalizer := eq }, [.equalizerUpdated eq.is_enabled eq.get_all_gains], false)
  | .resetEqualizer =>
    let eq := st.equalizer.reset_all_bands pc
    ({ st with equalizer := eq }, [.equalizerUpdated eq.is_enabled eq.get_all_gains], false)
  | .shutdown => (st, [], true)

/-- The decode/feed/report phase of one loop iteration (everything
after the command match): when playing and not paused, decode one chunk
if the output wants data, then emit the throttled `Position` event and
the `VisualizationData` snapshot; an end-of-stream decode tears down
playback and emits `Finished` at the end of the iteration. -/
def decodePhase (st : ControllerState) (throttleDue : Bool) :
    ControllerState × List AudioEvent :=
  match st.playback with
  | none => (st, [])
  | some pb =>
    if pb.is_paused then (st, [])
    else
      let fed :=
        if pb.output.needs_data then
          let d := SymphoniaPlayer.decode_next pb.player st.equalizer st.capture
          let pb1 : PBState := { pb with player := d.2.1 }
          let st1 : ControllerState :=
            { st with playback := some pb1, equalizer := d.2.2.1, capture := d.2.2.2 }
          match d.1 with
          | .ok (some samples) =>
            if samples.isEmpty then (st1, pb1, false)
            else
              let pb2 : PBState := { pb1 with output := pb1.output.write_samples samples }
              ({ st1 with playback := some pb2 }, pb2, false)
          | .ok none => (st1, pb1, true)
          | .error _ => (st1, pb1, false)
        else (st, pb, false)
      let posEvents :=
        if throttleDue then
          match fed.1.current_track with
          | some track =>
            [AudioEvent.position fed.2.1.player.current_position
              (track.duration_secs.getD 0)]
          | none => []
        else []
      let vizEvents := [AudioEvent.visualizationData fed.1.capture.get_samples]
      if fed.2.2 then
        ({ fed.1 with playback := none, current_track := none },
         posEvents ++ vizEvents ++ [.finished])
      else (fed.1, posEvents ++ vizEvents)

/-- Per-iteration external inputs: an optionally dequeued command and
whether the position throttle interval has elapsed. -/
structure IterInput where
  cmd : Option CmdIn
  throttleDue : Bool

/-- One iteration of the control loop. -/
def controllerStep (pc : PeakFn) (w : World) (st : ControllerState)
    (inp : IterInput) : ControllerState × List AudioEvent × Bool :=
  match inp.cmd with
  | some c =>
    let h := handleCommand pc w st c
    if h.2.2 then (h.1, h.2.1, true)
    else
      let d := decodePhase h.1 inp.throttleDue
      (d.1, h.2.1 ++ d.2, false)
  | none =>
    let d := decodePhase st inp.throttleDue
    (d.1, d.2, false)

/-- Run the control loop over a sequence of iteration inputs,
concatenating the emitted events; `Shutdown` breaks out. -/
def run (pc : PeakFn) (w : World) : ControllerState → List IterInput →
    ControllerState × List AudioEvent
  | st, [] => (st, [])
  | st, i :: is =>
    let s := controllerStep pc w st i
    if s.2.2 then (s.1, s.2.1)
    else
      let rest := run pc w s.1 is
      (rest.1, s.2.1 ++ rest.2)

/-- The thread-local state the control loop starts from: no playback,
no track, a disabled 44.1 kHz equalizer, a 2048-sample capture buffer. -/
def initialState (pc : PeakFn) : ControllerState :=
  { playback := none, current_track := none
    equalizer := Equalizer.new pc 44100
    capture := AudioCaptureBuffer.new 2048 }

/-- `AudioEngine::new` (`lib.rs`): create the channels, spawn the
control thread, and return `Ok` — nothing about the audio device is
consulted at construction time, so the result carries the spawned
loop's initial state unconditionally. -/
def audioEngineNew (pc : PeakFn) (_w : World) : Except PErr ControllerState :=
  .ok (initialState pc)

/-! ## C1: the hardware callback versus `write_samples` -/

/-- A device that accepts every stream configuration. -/
def deviceAlways : DeviceModel :=
  { accepts := fun _ _ => true, defaultRate := 44100, defaultChannels := 2 }

theorem writes_preserve_callback (o : CpalOutput) (ws : List (List ℚ)) :
    (ws.foldl CpalOutput.write_samples o).callbackBuffer = o.callbackBuffer ∧
    (ws.foldl CpalOutput.write_samples o).callbackPlaying = o.callbackPlaying := by
  induction ws generalizing o with
  | nil => exact ⟨rfl, rfl⟩
  | cons s ss ih => exact ⟨(ih _).1, (ih _).2⟩

/-- C1 (evaluation of the code at the failing input): the struct
`CpalOutput::new` returns stores a sample buffer *distinct* from the
one captured by the stream callback, so after any sequence of
`write_samples` calls the callback still reads an empty buffer and
delivers `n` zeros — in particular, after `write_samples(&[1.0])` a
callback request for one sample delivers `[0.0]`, not `[1.0]` as the
claim requires. -/
theorem c1_hardware_callback_reads_disconnected_buffer :
    (∀ (ws : List (List ℚ)) (n : ℕ),
      ((ws.foldl CpalOutput.write_samples
        (CpalOutput.assemble ([], true) 44100 2)).callbackFill n).1 =
        List.replicate n 0) ∧
    CpalOutput.new (some deviceAlways) 44100 2 =
      .ok (CpalOutput.assemble ([], true) 44100 2) ∧
    (((CpalOutput.assemble ([], true) 44100 2).write_samples
        [1]).callbackFill 1).1 = [0] ∧
    [(0 : ℚ)] ≠ [1] := by
  refine ⟨?_, rfl, rfl, by decide⟩
  intro ws n
  have h := writes_preserve_callback (CpalOutput.assemble ([], true) 44100 2) ws
  simp only [CpalOutput.callbackFill, h.1, h.2]
  simp [CpalOutput.assemble]

/-! ## C6: the decode error policy -/

/-- C6: `SymphoniaPlayer::decode_next` error policy: a `DecodeError`
packet yields `Ok(Some(empty))` with the stream advanced (decoding can
continue); a packet of a different track yields `Ok(Some(empty))`; an
`UnexpectedEof` I/O error yields `Ok(None)`; `ResetRequired` resets the
decoder and yields `Ok(Some(empty))`; every other error (non-EOF I/O
error, other reader error, non-`DecodeError` decoder error) yields
`Err`.  In all the recoverable cases the position, equalizer and
capture buffer are untouched. -/
theorem c6_decode_next_error_policy (p : PlayerState) (eq : Equalizer)
    (cap : AudioCaptureBuffer) (rest : List ReadResult) :
    (p.stream = .packet p.track_id .decodeError :: rest →
      SymphoniaPlayer.decode_next p eq cap =
        (.ok (some []), { p with stream := rest }, eq, cap)) ∧
    (∀ tid outcome, tid ≠ p.track_id →
      p.stream = .packet tid outcome :: rest →
      SymphoniaPlayer.decode_next p eq cap =
        (.ok (some []), { p with stream := rest }, eq, cap)) ∧
    (p.stream = .ioError .unexpectedEof :: rest →
      SymphoniaPlayer.decode_next p eq cap =
        (.ok none, { p with stream := rest }, eq, cap)) ∧
    (p.stream = .resetRequired :: rest →
      SymphoniaPlayer.decode_next p eq cap =
        (.ok (some []), { p with stream := rest }, eq, cap)) ∧
    (p.stream = .ioError .otherIo :: rest →
      (SymphoniaPlayer.decode_next p eq cap).1 = .error .readPacketFailed) ∧
    (p.stream = .otherError :: rest →
      (SymphoniaPlayer.decode_next p eq cap).1 = .error .readPacketFailed) ∧
    (p.stream = .packet p.track_id .otherError :: rest →
      (SymphoniaPlayer.decode_next p eq cap).1 = .error .decodeFailed) := by
  refine ⟨?_, ?_, ?_, ?_, ?_, ?_, ?_⟩ <;>
    first
    | (intro h; simp [SymphoniaPlayer.decode_next, h])
    | (intro tid outcome hne h; simp [SymphoniaPlayer.decode_next, h, hne])

/-- A concrete capture buffer for witnesses. -/
def capSmall : AudioCaptureBuffer := AudioCaptureBuffer.new 4

/-- A concrete player whose next packet fails with `DecodeError`. -/
def playerDecodeErr : PlayerState :=
  { stream := [.packet 0 .decodeError], track_id := 0, sample_rate := 44100
    channels := 2, time_base := (1, 44100), current_position := 0 }

theorem c6_decode_next_error_policy_witness :
    playerDecodeErr.stream =
      .packet playerDecodeErr.track_id .decodeError :: [] ∧
    SymphoniaPlayer.decode_next playerDecodeErr (Equalizer.new pcId 44100)
      capSmall =
      (.ok (some []), { playerDecodeErr with stream := [] },
       Equalizer.new pcId 44100, capSmall) :=
  ⟨by decide,
   (c6_decode_next_error_policy playerDecodeErr (Equalizer.new pcId 44100)
     capSmall []).1 (by decide)⟩

/-! ## C7: position accounting -/

theorem applyEqMono_length (eq : Equalizer) (s : List ℚ) :
    (SymphoniaPlayer.applyEqMono eq s).1.length = s.length := by
  induction s generalizing eq with
  | nil => rfl
  | cons a rest ih => simp [SymphoniaPlayer.applyEqMono, ih]

theorem applyEqChunks_length : ∀ (s : List ℚ) (eq : Equalizer),
    (SymphoniaPlayer.applyEqChunks eq s).1.length = 2 * (s.length / 2)
  | [], _ => rfl
  | [_], _ => by simp [SymphoniaPlayer.applyEqChunks]
  | a :: b :: rest, eq => by
    have ih := applyEqChunks_length rest (eq.process_stereo a b).2
    simp only [SymphoniaPlayer.applyEqChunks, List.length_cons]
    omega

/-- The frame count of the chunk `apply_equalizer` returns agrees with
the frame count the source computes from the pre-equalizer samples. -/
theorem apply_equalizer_length_div (eq : Equalizer) (c : ℕ) (s : List ℚ) :
    (SymphoniaPlayer.apply_equalizer eq c s).1.length / c = s.length / c := by
  unfold SymphoniaPlayer.apply_equalizer
  split
  · rfl
  · split
    · next h => rw [applyEqMono_length]
    · split
      · next h => subst h; rw [applyEqChunks_length]; omega
      · rfl

/-- A world with an always-accepting default output device. -/
def worldA : World := { device := some deviceAlways }

/-- C7 (amended): `current_position` accumulates decoded frames over
the sample rate, not wall-clock time: a successful `decode_next`
returning a chunk of `n` samples over `c` channels adds exactly
`(n / c) / sample_rate`; the empty-chunk outcomes (bad packet, foreign
track, reset) add 0; a control-loop iteration with playback paused
changes nothing (so the position freezes); and `seek` on reader success
sets the position to the *whole-second part* of the actual seek
timestamp under the track time base, while on the `ResetRequired` path
it reports success leaving the position unchanged. -/
theorem c7_position_accounting (p : PlayerState) (eq : Equalizer)
    (cap : AudioCaptureBuffer) (rest : List ReadResult) :
    (∀ samples : List ℚ, 0 < p.channels →
      p.stream = .packet p.track_id (.ok samples) :: rest →
      ∃ out, (SymphoniaPlayer.decode_next p eq cap).1 = .ok (some out) ∧
        (SymphoniaPlayer.decode_next p eq cap).2.1.current_position =
          p.current_position +
            ((out.length / p.channels : ℕ) : ℚ) / (p.sample_rate : ℚ)) ∧
    (p.stream = .packet p.track_id .decodeError :: rest →
      (SymphoniaPlayer.decode_next p eq cap).2.1.current_position =
        p.current_position) ∧
    (p.stream = .resetRequired :: rest →
      (SymphoniaPlayer.decode_next p eq cap).2.1.current_position =
        p.current_position) ∧
    (∀ tid outcome, tid ≠ p.track_id →
      p.stream = .packet tid outcome :: rest →
      (SymphoniaPlayer.decode_next p eq cap).2.1.current_position =
        p.current_position) ∧
    (∀ (pcf : PeakFn) (w : World) (st : ControllerState) (pb : PBState)
        (b : Bool), st.playback = some pb → pb.is_paused = true →
      controllerStep pcf w st { cmd := none, throttleDue := b } =
        (st, [], false)) ∧
    (∀ (t : ℚ) (ts : ℕ) (after : List ReadResult),
      SymphoniaPlayer.seek p t (.ok ts after) =
        (.ok (), { p with
                   stream := after,
                   current_position :=
                     (SymphoniaPlayer.calcTimeSeconds p.time_base ts : ℚ) })) ∧
    (∀ (t : ℚ) (after : List ReadResult),
      SymphoniaPlayer.seek p t (.resetRequired after) =
        (.ok (), { p with stream := after })) := by
  refine ⟨?_, ?_, ?_, ?_, ?_, ?_, ?_⟩
  · intro samples hc h
    refine ⟨(SymphoniaPlayer.apply_equalizer eq p.channels samples).1, ?_, ?_⟩
    · simp [SymphoniaPlayer.decode_next, h]
    · simp only [SymphoniaPlayer.decode_next, h]
      simp [apply_equalizer_length_div]
  · intro h
    simp [SymphoniaPlayer.decode_next, h]
  · intro h
    simp [SymphoniaPlayer.decode_next, h]
  · intro tid outcome hne h
    simp [SymphoniaPlayer.decode_next, h, hne]
  · intro pcf w st pb b hpb hp
    simp [controllerStep, decodePhase, hpb, hp]
  · intro t ts after
    rfl
  · intro t after
    rfl

/-- A disabled equalizer for concrete evaluations. -/
def eqOff : Equalizer := Equalizer.new pcId 44100

/-- A concrete player about to be seeked: time base 1/2 (two timestamp
ticks per second), 100 Hz mono. -/
def playerCx : PlayerState :=
  { stream := [], track_id := 0, sample_rate := 100, channels := 1
    time_base := (1, 2), current_position := 0 }

/-- C7 counterexample: seek to `t = 5.5` s; the reader lands exactly on
timestamp 11 (= 5.5 s under time base 1/2) and then delivers one good
2-frame packet (duration 1/50 s at 100 Hz mono).  The seek succeeds and
the next `decode_next` succeeds, but `current_position` is `5 + 1/50`
(the seek truncated 5.5 to whole seconds), which is *not* within one
chunk's duration (1/50) of `t` — refuting the convergence part of the
claim as stated. -/
theorem c7_seek_convergence_counterexample :
    (SymphoniaPlayer.seek playerCx (11/2)
      (.ok 11 [.packet 0 (.ok [0, 0])])).1 = .ok () ∧
    (SymphoniaPlayer.decode_next
      (SymphoniaPlayer.seek playerCx (11/2)
        (.ok 11 [.packet 0 (.ok [0, 0])])).2 eqOff capSmall).1 =
      .ok (some [0, 0]) ∧
    ¬ |(SymphoniaPlayer.decode_next
        (SymphoniaPlayer.seek playerCx (11/2)
          (.ok 11 [.packet 0 (.ok [0, 0])])).2 eqOff capSmall).2.1.current_position
        - 11/2| ≤ 2 / 100 := by
  refine ⟨rfl, rfl, ?_⟩
  have hpos : (SymphoniaPlayer.decode_next
      (SymphoniaPlayer.seek playerCx (11/2)
        (.ok 11 [.packet 0 (.ok [0, 0])])).2 eqOff capSmall).2.1.current_position =
      ((5 : ℕ) : ℚ) + ((2 : ℕ) : ℚ) / ((100 : ℕ) : ℚ) := rfl
  rw [hpos]
  push_cast
  rw [not_le]
  have h5 : (5 : ℚ) + 2 / 100 - 11 / 2 = -(12 / 25) := by norm_num
  rw [h5, abs_neg, abs_of_nonneg (by norm_num : (0 : ℚ) ≤ 12 / 25)]
  norm_num

/-- A player whose next packet decodes to two interleaved stereo
samples. -/
def playerGood : PlayerState :=
  { stream := [.packet 0 (.ok [1, 2])], track_id := 0, sample_rate := 100
    channels := 2, time_base := (1, 100), current_position := 0 }

/-- A paused playback state on top of `playerDecodeErr`. -/
def stPaused : ControllerState :=
  { playback := some { player := playerDecodeErr
                       output := CpalOutput.assemble ([], true) 100 2
                       is_paused := true }
    current_track := none
    equalizer := eqOff
    capture := capSmall }

theorem c7_position_accounting_witness :
    (0 < playerGood.channels ∧
      playerGood.stream = .packet playerGood.track_id (.ok [1, 2]) :: [] ∧
      ∃ out, (SymphoniaPlayer.decode_next playerGood eqOff capSmall).1 =
          .ok (some out) ∧
        (SymphoniaPlayer.decode_next playerGood eqOff capSmall).2.1.current_position =
          playerGood.current_position +
            ((out.length / playerGood.channels : ℕ) : ℚ) /
              (playerGood.sample_rate : ℚ)) ∧
    (stPaused.playback.map PBState.is_paused = some true ∧
      controllerStep pcId worldA stPaused { cmd := none, throttleDue := false } =
        (stPaused, [], false)) := by
  constructor
  · exact ⟨by decide, by decide,
      (c7_position_accounting playerGood eqOff capSmall []).1 [1, 2]
        (by decide) (by decide)⟩
  · exact ⟨by decide,
      (c7_position_accounting playerGood eqOff capSmall []).2.2.2.2.1 pcId
        worldA stPaused _ false rfl (by decide)⟩

/-! ## C3: engine construction and the missing output device -/

/-- A world with no output device at all. -/
def worldNone : World := { device := none }

/-- C3 counterexample: with no output device available,
`AudioEngine::new` still returns `Ok` — it only spawns the control
thread and never consults the audio host — refuting the claim that it
returns a construction failure. -/
theorem c3_engine_new_ok_without_device :
    audioEngineNew pcId worldNone = .ok (initialState pcId) ∧
    ∀ e, audioEngineNew pcId worldNone ≠ .error e :=
  ⟨rfl, fun _ h => Except.noConfusion h⟩

/-- C3 (amended): `AudioEngine::new` always succeeds, for every world;
a missing output device surfaces only later, when a `Play` command
constructs the output: the handler then emits an `Error` event (after
`TrackLoaded`) and leaves playback `None`. -/
theorem c3_no_device_reported_as_error_event (pc : PeakFn) (w : World)
    (st : ControllerState) (track : TrackInfo) (player : PlayerState)
    (hdev : w.device = none) :
    audioEngineNew pc w = .ok (initialState pc) ∧
    (handleCommand pc w st (.play (.ok track) (.ok player))).2.1 =
      [.trackLoaded track, .error .noOutputDevice] ∧
    (handleCommand pc w st (.play (.ok track) (.ok player))).1.playback =
      none := by
  refine ⟨rfl, ?_, ?_⟩ <;>
    simp [handleCommand, load_and_play, CpalOutput.new, hdev]

/-- A concrete track metadata value. -/
def trackA : TrackInfo := { duration_secs := some 10 }

theorem c3_no_device_reported_as_error_event_witness :
    worldNone.device = none ∧
    audioEngineNew pcId worldNone = .ok (initialState pcId) ∧
    (handleCommand pcId worldNone stPaused
      (.play (.ok trackA) (.ok playerGood))).2.1 =
      [.trackLoaded trackA, .error .noOutputDevice] ∧
    (handleCommand pcId worldNone stPaused
      (.play (.ok trackA) (.ok playerGood))).1.playback = none := by
  have h := c3_no_device_reported_as_error_event pcId worldNone stPaused
    trackA playerGood rfl
  exact ⟨rfl, h.1, h.2.1, h.2.2⟩

/-! ## C2: controller state after an Error event -/

/-- A good packet for track 0. -/
def goodPkt : ReadResult := .packet 0 (.ok [0, 0])

/-- A player with four good packets queued. -/
def playerSeq : PlayerState :=
  { stream := [goodPkt, goodPkt, goodPkt, goodPkt], track_id := 0
    sample_rate := 100, channels := 2, time_base := (1, 100)
    current_position := 0 }

/-- C2 counterexample: from the initial state, a successful
`Play` followed by a failing `Seek` reaches a state where the handler
has just emitted an `Error` event yet playback is still live (decoder
and output retained) — refuting the claim that every `Error` returns
the controller to `Idle`. -/
theorem c2_seek_error_keeps_playback_counterexample :
    AudioEvent.error .seekFailed ∈
      (run pcId worldA (initialState pcId)
        [{ cmd := some (.play (.ok trackA) (.ok playerSeq)), throttleDue := false },
         { cmd := some (.seek 1 .err), throttleDue := false }]).2 ∧
    (run pcId worldA (initialState pcId)
        [{ cmd := some (.play (.ok trackA) (.ok playerSeq)), throttleDue := false },
         { cmd := some (.seek 1 .err), throttleDue := false }]).1.playback ≠
      none := by
  refine ⟨by decide, by decide⟩

/-- C2 (amended): an `Error` emitted by the `Play` handler (file-open,
probe, decoder-construction or output-construction failure) always
leaves playback `None`; an `Error` emitted by the `Seek` handler leaves
the pre-seek playback (decoder and output sink) in place. -/
theorem c2_error_leaves_idle_except_seek (pc : PeakFn) (w : World)
    (st : ControllerState) (load : Except PErr TrackInfo)
    (lp : Except PErr PlayerState) (t : ℚ) :
    (∀ e, .error e ∈ (handleCommand pc w st (.play load lp)).2.1 →
      (handleCommand pc w st (.play load lp)).1.playback = none) ∧
    (∀ pb, st.playback = some pb →
      (handleCommand pc w st (.seek t .err)).2.1 = [.error .seekFailed] ∧
      (handleCommand pc w st (.seek t .err)).1.playback = some pb) := by
  constructor
  · intro e he
    match hl : load with
    | .error e1 => simp [handleCommand, hl]
    | .ok track =>
      match hlp : load_and_play lp w with
      | .ok pb => simp [handleCommand, hl, hlp] at he
      | .error e2 => simp [handleCommand, hl, hlp]
  · intro pb hpb
    constructor
    · simp [handleCommand, hpb, SymphoniaPlayer.seek]
    · simp [handleCommand, hpb, SymphoniaPlayer.seek]

theorem c2_error_leaves_idle_except_seek_witness :
    PErr.loadTrackFailed = PErr.loadTrackFailed ∧
    (AudioEvent.error .loadTrackFailed ∈
      (handleCommand pcId worldA stPaused
        (.play (.error .loadTrackFailed) (.ok playerGood))).2.1) ∧
    (handleCommand pcId worldA stPaused
      (.play (.error .loadTrackFailed) (.ok playerGood))).1.playback = none ∧
    stPaused.playback = some { player := playerDecodeErr
                               output := CpalOutput.assemble ([], true) 100 2
                               is_paused := true } ∧
    (handleCommand pcId worldA stPaused (.seek 1 .err)).2.1 =
      [.error .seekFailed] ∧
    (handleCommand pcId worldA stPaused (.seek 1 .err)).1.playback =
      stPaused.playback := by
  have h := c2_error_leaves_idle_except_seek pcId worldA stPaused
    (.error .loadTrackFailed) (.ok playerGood) 1
  have h2 := h.2 _ rfl
  exact ⟨rfl, by decide, h.1 .loadTrackFailed (by decide), rfl, h2.1, h2.2⟩

/-! ## C8: command/event causality for Play, Pause, Resume, Stop

The throttled `Position` and the `VisualizationData` snapshots are the
events a consumer may see interleaved; everything else is a "major"
state-change event whose relative order the claim fixes. -/

def isMajor : AudioEvent → Bool
  | .position _ _ => false
  | .visualizationData _ => false
  | _ => true

/-- A packet of the selected track that decodes successfully. -/
def goodPacketFor (tid : ℕ) : ReadResult → Bool
  | .packet t (.ok _) => t == tid
  | _ => false

/-- Every queued reader outcome is a good packet of track `tid`. -/
def goodStream (tid : ℕ) (l : List ReadResult) : Prop :=
  ∀ r ∈ l, goodPacketFor tid r = true

/-- Invariant of a live playback: a playback state with the given pause
flag whose stream is all good packets and holds at least `k` more. -/
def PBInv (st : ControllerState) (paused : Bool) (k : ℕ) : Prop :=
  ∃ pb, st.playback = some pb ∧ pb.is_paused = paused ∧
    goodStream pb.player.track_id pb.player.stream ∧
    k ≤ pb.player.stream.length

theorem decode_next_good (p : PlayerState) (eq : Equalizer)
    (cap : AudioCaptureBuffer) (r : ReadResult) (rest : List ReadResult)
    (hs : p.stream = r :: rest) (hr : goodPacketFor p.track_id r = true) :
    ∃ out, (SymphoniaPlayer.decode_next p eq cap).1 = .ok (some out) ∧
      (SymphoniaPlayer.decode_next p eq cap).2.1.stream = rest ∧
      (SymphoniaPlayer.decode_next p eq cap).2.1.track_id = p.track_id := by
  cases r with
  | packet t outcome =>
    cases outcome with
    | ok s =>
      have ht : t = p.track_id := by simpa [goodPacketFor] using hr
      subst ht
      exact ⟨(SymphoniaPlayer.apply_equalizer eq p.channels s).1,
        by simp [SymphoniaPlayer.decode_next, hs],
        by simp [SymphoniaPlayer.decode_next, hs],
        by simp [SymphoniaPlayer.decode_next, hs]⟩
    | decodeError => simp [goodPacketFor] at hr
    | otherError => simp [goodPacketFor] at hr
  | ioError k => simp [goodPacketFor] at hr
  | resetRequired => simp [goodPacketFor] at hr
  | otherError => simp [goodPacketFor] at hr

theorem decodePhase_paused (st : ControllerState) (b : Bool) (pb : PBState)
    (hpb : st.playback = some pb) (hp : pb.is_paused = true) :
    decodePhase st b = (st, []) := by
  simp [decodePhase, hpb, hp]

theorem decodePhase_idle (st : ControllerState) (b : Bool)
    (h : st.playback = none) : decodePhase st b = (st, []) := by
  simp [decodePhase, h]

theorem decodePhase_playing (st : ControllerState) (b : Bool) (pb : PBState)
    (hpb : st.playback = some pb) (hp : pb.is_paused = false)
    (hgood : goodStream pb.player.track_id pb.player.stream)
    (hlen : 1 ≤ pb.player.stream.length) :
    (decodePhase st b).2.filter isMajor = [] ∧
    ∃ pb2, (decodePhase st b).1.playback = some pb2 ∧
      pb2.is_paused = false ∧
      goodStream pb2.player.track_id pb2.player.stream ∧
      pb.player.stream.length ≤ pb2.player.stream.length + 1 := by
  cases hnd : pb.output.needs_data with
  | false =>
    constructor
    · cases b <;>
        cases htc : st.current_track <;>
        simp [decodePhase, hpb, hp, hnd, htc, isMajor]
    · refine ⟨pb, ?_, hp, hgood, by omega⟩
      cases b <;>
        cases htc : st.current_track <;>
        simp [decodePhase, hpb, hp, hnd, htc]
  | true =>
    cases hstream : pb.player.stream with
    | nil => rw [hstream] at hlen; simp at hlen
    | cons r rest =>
      have hr : goodPacketFor pb.player.track_id r = true :=
        hgood r (hstream ▸ List.mem_cons_self _ _)
      obtain ⟨out, ho1, ho2, ho3⟩ :=
        decode_next_good pb.player st.equalizer st.capture r rest hstream hr
      have hgood2 : goodStream
          (SymphoniaPlayer.decode_next pb.player st.equalizer st.capture).2.1.track_id
          (SymphoniaPlayer.decode_next pb.player st.equalizer st.capture).2.1.stream := by
        rw [ho2, ho3]
        exact fun x hx => hgood x (hstream ▸ List.mem_cons_of_mem _ hx)
      have hlen2 : (r :: rest).length ≤
          (SymphoniaPlayer.decode_next pb.player st.equalizer st.capture).2.1.stream.length + 1 := by
        rw [ho2]
        simp
      constructor
      · cases hoE : out.isEmpty <;>
          cases b <;>
          cases htc : st.current_track <;>
          simp [decodePhase, hpb, hp, hnd, htc, ho1, hoE, isMajor]
      · cases hoE : out.isEmpty
        · refine ⟨PBState.mk
            (SymphoniaPlayer.decode_next pb.player st.equalizer st.capture).2.1
            (pb.output.write_samples out) pb.is_paused, ?_, hp, hgood2, hlen2⟩
          simp [decodePhase, hpb, hp, hnd, ho1, hoE]
        · refine ⟨PBState.mk
            (SymphoniaPlayer.decode_next pb.player st.equalizer st.capture).2.1
            pb.output pb.is_paused, ?_, hp, hgood2, hlen2⟩
          simp [decodePhase, hpb, hp, hnd, ho1, hoE]

/-- `decodePhase` under the playback invariant: only minor events, and
the invariant survives with one packet of budget spent. -/
theorem decodePhase_PBInv (st : ControllerState) (b : Bool) (k : ℕ)
    (h : PBInv st false (k + 1)) :
    (decodePhase st b).2.filter isMajor = [] ∧
    PBInv (decodePhase st b).1 false k := by
  obtain ⟨pb, hpb, hp, hgood, hk⟩ := h
  obtain ⟨hfilter, pb2, hpb2, hp2, hgood2, hlen2⟩ :=
    decodePhase_playing st b pb hpb hp hgood (by omega)
  exact ⟨hfilter, pb2, hpb2, hp2, hgood2, by omega⟩

theorem run_cons_false (pc : PeakFn) (w : World) (st : ControllerState)
    (i : IterInput) (is : List IterInput) (st1 : ControllerState)
    (evs : List AudioEvent)
    (h : controllerStep pc w st i = (st1, evs, false)) :
    run pc w st (i :: is) =
      ((run pc w st1 is).1, evs ++ (run pc w st1 is).2) := by
  simp [run, h]

theorem controllerStep_none (pc : PeakFn) (w : World) (st : ControllerState)
    (b : Bool) :
    controllerStep pc w st { cmd := none, throttleDue := b } =
      ((decodePhase st b).1, (decodePhase st b).2, false) := rfl

theorem controllerStep_cmd (pc : PeakFn) (w : World) (st : ControllerState)
    (c : CmdIn) (b : Bool) (st1 : ControllerState) (evs : List AudioEvent)
    (h : handleCommand pc w st c = (st1, evs, false)) :
    controllerStep pc w st { cmd := some c, throttleDue := b } =
      ((decodePhase st1 b).1, evs ++ (decodePhase st1 b).2, false) := by
  simp [controllerStep, h]

theorem run_gaps_playing (pc : PeakFn) (w : World) :
    ∀ (gaps rest : List IterInput) (st : ControllerState) (k : ℕ),
    (∀ i ∈ gaps, i.cmd = none) → PBInv st false (k + gaps.length) →
    ∃ st2 evs, run pc w st (gaps ++ rest) =
        ((run pc w st2 rest).1, evs ++ (run pc w st2 rest).2) ∧
      evs.filter isMajor = [] ∧ PBInv st2 false k := by
  intro gaps
  induction gaps with
  | nil =>
    intro rest st k _ hinv
    exact ⟨st, [], by simp, rfl, by simpa using hinv⟩
  | cons i gaps ih =>
    intro rest st k hnone hinv
    have hi : i.cmd = none := hnone i (List.mem_cons_self _ _)
    have hinv1 : PBInv st false ((k + gaps.length) + 1) := by
      have heq : k + (i :: gaps).length = k + gaps.length + 1 := by
        rw [List.length_cons]
        omega
      exact heq ▸ hinv
    obtain ⟨hfilter, hinv2⟩ := decodePhase_PBInv st i.throttleDue _ hinv1
    have hstep : controllerStep pc w st i =
        ((decodePhase st i.throttleDue).1, (decodePhase st i.throttleDue).2, false) := by
      have : i = { cmd := none, throttleDue := i.throttleDue } := by
        cases i with
        | mk c t => simp at hi; rw [hi]
      rw [this]
      exact controllerStep_none pc w st i.throttleDue
    obtain ⟨st2, evs, hrun, hevs, hinv3⟩ :=
      ih rest (decodePhase st i.throttleDue).1 k
        (fun j hj => hnone j (List.mem_cons_of_mem _ hj)) hinv2
    refine ⟨st2, (decodePhase st i.throttleDue).2 ++ evs, ?_, ?_, hinv3⟩
    · rw [List.cons_append, run_cons_false pc w st i _ _ _ hstep, hrun]
      simp only [List.append_assoc]
    · rw [List.filter_append, hfilter, hevs]
      rfl

theorem run_gaps_paused (pc : PeakFn) (w : World) :
    ∀ (gaps rest : List IterInput) (st : ControllerState) (pb : PBState),
    (∀ i ∈ gaps, i.cmd = none) → st.playback = some pb →
    pb.is_paused = true →
    run pc w st (gaps ++ rest) = run pc w st rest := by
  intro gaps
  induction gaps with
  | nil => intro rest st pb _ _ _; simp
  | cons i gaps ih =>
    intro rest st pb hnone hpb hp
    have hi : i.cmd = none := hnone i (List.mem_cons_self _ _)
    have hstep : controllerStep pc w st i = (st, [], false) := by
      have hieq : i = { cmd := none, throttleDue := i.throttleDue } := by
        cases i with
        | mk c t => simp at hi; rw [hi]
      rw [hieq, controllerStep_none pc w st i.throttleDue,
        decodePhase_paused st i.throttleDue pb hpb hp]
    rw [List.cons_append, run_cons_false pc w st i _ _ _ hstep,
      ih rest st pb (fun j hj => hnone j (List.mem_cons_of_mem _ hj)) hpb hp]
    simp

theorem run_gaps_idle (pc : PeakFn) (w : World) :
    ∀ (gaps rest : List IterInput) (st : ControllerState),
    (∀ i ∈ gaps, i.cmd = none) → st.playback = none →
    run pc w st (gaps ++ rest) = run pc w st rest := by
  intro gaps
  induction gaps with
  | nil => intro rest st _ _; simp
  | cons i gaps ih =>
    intro rest st hnone hidle
    have hi : i.cmd = none := hnone i (List.mem_cons_self _ _)
    have hstep : controllerStep pc w st i = (st, [], false) := by
      have hieq : i = { cmd := none, throttleDue := i.throttleDue } := by
        cases i with
        | mk c t => simp at hi; rw [hi]
      rw [hieq, controllerStep_none pc w st i.throttleDue,
        decodePhase_idle st i.throttleDue hidle]
    rw [List.cons_append, run_cons_false pc w st i _ _ _ hstep,
      ih rest st (fun j hj => hnone j (List.mem_cons_of_mem _ hj)) hidle]
    simp

theorem run_nil_state (pc : PeakFn) (w : World) (st : ControllerState) :
    run pc w st [] = (st, []) := rfl

theorem run_gaps_idle_nil (pc : PeakFn) (w : World) (gaps : List IterInput)
    (st : ControllerState) (hnone : ∀ i ∈ gaps, i.cmd = none)
    (hidle : st.playback = none) :
    run pc w st gaps = (st, []) := by
  rw [← List.append_nil gaps, run_gaps_idle pc w gaps [] st hnone hidle]
  rfl

theorem handle_play_ok (pc : PeakFn) (w : World) (st : ControllerState)
    (track : TrackInfo) (player : PlayerState) (out0 : CpalOutput)
    (hnew : CpalOutput.new w.device player.sample_rate player.channels =
      .ok out0) :
    handleCommand pc w st (.play (.ok track) (.ok player)) =
      (ControllerState.mk (some (PBState.mk player out0 false)) (some track)
        st.equalizer st.capture,
       [.trackLoaded track, .playing], false) := by
  simp [handleCommand, load_and_play, hnew]

theorem handle_pause_playing (pc : PeakFn) (w : World) (st : ControllerState)
    (pb : PBState) (hpb : st.playback = some pb)
    (hp : pb.is_paused = false) :
    handleCommand pc w st .pause =
      (ControllerState.mk (some (PBState.mk pb.player pb.output.pause true))
        st.current_track st.equalizer st.capture,
       [.paused], false) := by
  simp [handleCommand, hpb, hp]

theorem handle_resume_paused (pc : PeakFn) (w : World) (st : ControllerState)
    (pb : PBState) (hpb : st.playback = some pb)
    (hp : pb.is_paused = true) :
    handleCommand pc w st .resume =
      (ControllerState.mk (some (PBState.mk pb.player pb.output.play false))
        st.current_track st.equalizer st.capture,
       [.playing], false) := by
  simp [handleCommand, hpb, hp]

theorem handle_stop_any (pc : PeakFn) (w : World) (st : ControllerState) :
    handleCommand pc w st .stop =
      (ControllerState.mk none none st.equalizer st.capture,
       [.stopped], false) := rfl

/-- C8: for any schedule that feeds the commands
`Play(a), Pause, Resume, Stop` (in that order, with arbitrary
command-free iterations and throttle timings in between) to the control
loop, against a file that loads successfully (metadata and player both
constructed), an output device that accepts the stream, and a packet
stream that keeps decoding cleanly for the duration of the scenario,
the emitted events — after discarding the interleavable `Position` and
`VisualizationData` events — are exactly
`TrackLoaded, Playing, Paused, Playing, Stopped` in that order; in
particular `TrackLoaded` precedes the `Playing` of this load. -/
theorem c8_play_pause_resume_stop_event_order
    (pc : PeakFn) (w : World) (track : TrackInfo) (player : PlayerState)
    (out0 : CpalOutput) (st0 : ControllerState)
    (g0 g1 g2 g3 g4 : List IterInput) (b1 b2 b3 b4 : Bool)
    (hidle : st0.playback = none)
    (hg0 : ∀ i ∈ g0, i.cmd = none) (hg1 : ∀ i ∈ g1, i.cmd = none)
    (hg2 : ∀ i ∈ g2, i.cmd = none) (hg3 : ∀ i ∈ g3, i.cmd = none)
    (hg4 : ∀ i ∈ g4, i.cmd = none)
    (hnew : CpalOutput.new w.device player.sample_rate player.channels =
      .ok out0)
    (hgood : goodStream player.track_id player.stream)
    (hlen : g1.length + g3.length + 2 ≤ player.stream.length) :
    ((run pc w st0
      (g0 ++ ({ cmd := some (.play (.ok track) (.ok player)), throttleDue := b1 } ::
       (g1 ++ ({ cmd := some .pause, throttleDue := b2 } ::
       (g2 ++ ({ cmd := some .resume, throttleDue := b3 } ::
       (g3 ++ ({ cmd := some .stop, throttleDue := b4 } :: g4))))))))).2).filter
      isMajor =
      [.trackLoaded track, .playing, .paused, .playing, .stopped] := by
  rw [run_gaps_idle pc w g0 _ st0 hg0 hidle]
  have hstepPlay := controllerStep_cmd pc w st0
    (.play (.ok track) (.ok player)) b1 _ _
    (handle_play_ok pc w st0 track player out0 hnew)
  rw [run_cons_false pc w st0 _ _ _ _ hstepPlay]
  have hinvA : PBInv (ControllerState.mk (some (PBState.mk player out0 false))
      (some track) st0.equalizer st0.capture) false
      ((g1.length + (g3.length + 1)) + 1) :=
    ⟨PBState.mk player out0 false, rfl, rfl, hgood,
     by show g1.length + (g3.length + 1) + 1 ≤ player.stream.length; omega⟩
  obtain ⟨hfA, hinvB⟩ := decodePhase_PBInv _ b1 _ hinvA
  have hinvB1 : PBInv (decodePhase (ControllerState.mk
      (some (PBState.mk player out0 false)) (some track) st0.equalizer
      st0.capture) b1).1 false ((g3.length + 1) + g1.length) := by
    have heq : g1.length + (g3.length + 1) = (g3.length + 1) + g1.length := by
      omega
    exact heq ▸ hinvB
  obtain ⟨stC, evsC, hrunC, hevsC, hinvC⟩ :=
    run_gaps_playing pc w g1 _ _ (g3.length + 1) hg1 hinvB1
  rw [hrunC]
  obtain ⟨pbC, hpbC, hpC, hgoodC, hlenC⟩ := hinvC
  have hdPauseD : decodePhase (ControllerState.mk
      (some (PBState.mk pbC.player pbC.output.pause true)) stC.current_track
      stC.equalizer stC.capture) b2 =
      (ControllerState.mk (some (PBState.mk pbC.player pbC.output.pause true))
        stC.current_track stC.equalizer stC.capture, []) :=
    decodePhase_paused _ b2 (PBState.mk pbC.player pbC.output.pause true) rfl rfl
  have hstepPause : controllerStep pc w stC
      { cmd := some .pause, throttleDue := b2 } =
      (ControllerState.mk (some (PBState.mk pbC.player pbC.output.pause true))
        stC.current_track stC.equalizer stC.capture, [.paused], false) := by
    rw [controllerStep_cmd pc w stC .pause b2 _ _
      (handle_pause_playing pc w stC pbC hpbC hpC), hdPauseD]
    rfl
  rw [run_cons_false pc w stC _ _ _ _ hstepPause]
  rw [run_gaps_paused pc w g2 _ _
    (PBState.mk pbC.player pbC.output.pause true) hg2 rfl rfl]
  have hstepResume := controllerStep_cmd pc w
    (ControllerState.mk (some (PBState.mk pbC.player pbC.output.pause true))
      stC.current_track stC.equalizer stC.capture) .resume b3 _ _
    (handle_resume_paused pc w _ (PBState.mk pbC.player pbC.output.pause true)
      rfl rfl)
  rw [run_cons_false pc w _ _ _ _ _ hstepResume]
  have hinvE : PBInv (ControllerState.mk
      (some (PBState.mk pbC.player pbC.output.pause.play false))
      stC.current_track stC.equalizer stC.capture) false (g3.length + 1) :=
    ⟨PBState.mk pbC.player pbC.output.pause.play false, rfl, rfl, hgoodC, hlenC⟩
  obtain ⟨hfE, hinvF⟩ := decodePhase_PBInv _ b3 _ hinvE
  have hinvF1 : PBInv (decodePhase (ControllerState.mk
      (some (PBState.mk pbC.player pbC.output.pause.play false))
      stC.current_track stC.equalizer stC.capture) b3).1 false
      (0 + g3.length) := by
    rw [Nat.zero_add]
    exact hinvF
  obtain ⟨stG, evsG, hrunG, hevsG, hinvG⟩ :=
    run_gaps_playing pc w g3 _ _ 0 hg3 hinvF1
  rw [hrunG]
  have hdStopI : decodePhase (ControllerState.mk none none stG.equalizer
      stG.capture) b4 =
      (ControllerState.mk none none stG.equalizer stG.capture, []) :=
    decodePhase_idle _ b4 rfl
  have hstepStop : controllerStep pc w stG
      { cmd := some .stop, throttleDue := b4 } =
      (ControllerState.mk none none stG.equalizer stG.capture,
       [.stopped], false) := by
    rw [controllerStep_cmd pc w stG .stop b4 _ _ (handle_stop_any pc w stG),
      hdStopI]
    rfl
  rw [run_cons_false pc w stG _ _ _ _ hstepStop]
  rw [run_gaps_idle_nil pc w g4 _ hg4 rfl]
  simp only [List.filter_append, List.append_assoc, hevsC, hevsG]
  simp [hfA, hfE, isMajor]

theorem c8_play_pause_resume_stop_event_order_witness :
    (initialState pcId).playback = none ∧
    CpalOutput.new worldA.device playerSeq.sample_rate playerSeq.channels =
      .ok (CpalOutput.assemble ([], true) 100 2) ∧
    goodStream playerSeq.track_id playerSeq.stream ∧
    ((run pcId worldA (initialState pcId)
      [{ cmd := some (.play (.ok trackA) (.ok playerSeq)), throttleDue := true },
       { cmd := none, throttleDue := true },
       { cmd := some .pause, throttleDue := false },
       { cmd := some .resume, throttleDue := true },
       { cmd := some .stop, throttleDue := false },
       { cmd := none, throttleDue := false }]).2).filter isMajor =
      [.trackLoaded trackA, .playing, .paused, .playing, .stopped] := by
  have hgd : goodStream playerSeq.track_id playerSeq.stream := by
    show ∀ r ∈ playerSeq.stream, goodPacketFor playerSeq.track_id r = true
    decide
  refine ⟨rfl, rfl, hgd, ?_⟩
  exact c8_play_pause_resume_stop_event_order pcId worldA trackA playerSeq
    (CpalOutput.assemble ([], true) 100 2) (initialState pcId)
    [] [{ cmd := none, throttleDue := true }] [] []
    [{ cmd := none, throttleDue := false }]
    true false true false rfl
    (by intro i hi; cases hi)
    (by intro i hi; rw [List.mem_singleton] at hi; subst hi; rfl)
    (by intro i hi; cases hi)
    (by intro i hi; cases hi)
    (by intro i hi; rw [List.mem_singleton] at hi; subst hi; rfl)
    rfl hgd (by decide)

end Oneamp
